import Mathlib

/-!
Verification of the MCP SSE client (files `client_sse.py` and `client.py`).

Shallow embedding conventions:
* Python strings are modelled as `Str := List Char`; string literals appear as
  `"...".toList`.
* `json.loads` is an external library call; its outcome on a payload is modelled by an
  oracle function returning `Option`/`Except` values (`none`/`.error` = the call raised).
* The LLM backend (`anthropic.messages.create`) and the HTTP POST are external
  collaborators; they are modelled as oracle fields of environment structures.
* A Python function that can raise an uncaught exception is modelled with `Option`
  (`none` = the exception propagates and aborts the enclosing loop).
* Side effects that matter to the claims (issuing a tool call, issuing a backend call)
  are made observable through an explicit `LogEntry` list returned next to the value.
-/

abbrev Str := List Char

/-- Boolean test that `p` is an initial segment of `x` (used by the Python-style
substring splitter below). -/
def startsWithL : Str → Str → Bool
  | [], _ => true
  | _ :: _, [] => false
  | p :: ps, x :: xs => if p = x then startsWithL ps xs else false

/-- Fuel-driven worker for `splitOnL`.  When the fuel is at least the length of the
input the fuel never runs out, so the wrapper below has exactly the semantics of
Python's `str.split(sep)` for a non-empty `sep`: scan left to right, cut at each
non-overlapping occurrence of `sep`. -/
def splitOnAuxL (sep : Str) : Nat → Str → List Str
  | _, [] => [[]]
  | 0, xs => [xs]
  | fuel + 1, x :: rest =>
    if 0 < sep.length ∧ startsWithL sep (x :: rest) = true then
      [] :: splitOnAuxL sep fuel ((x :: rest).drop sep.length)
    else
      match splitOnAuxL sep fuel rest with
      | [] => [[x]]
      | h :: t => (x :: h) :: t

/-- Python's `data.split(sep)` for non-empty `sep` (the only way the source uses it). -/
def splitOnL (sep xs : Str) : List Str := splitOnAuxL sep xs.length xs

/-- `containsSub sep xs` is true iff `sep` occurs as a contiguous substring of `xs`. -/
def containsSub (sep : Str) : Str → Bool
  | [] => startsWithL sep []
  | x :: rest => startsWithL sep (x :: rest) || containsSub sep rest

/-- Everything after the first occurrence of the character `c`, if any. -/
def afterCharL (c : Char) : Str → Option Str
  | [] => none
  | x :: xs => if x = c then some xs else afterCharL c xs

/-- Characters stripped by the line handling (Python `str.strip`; the protocol lines
only involve ASCII whitespace). -/
def isWS (c : Char) : Bool := c == ' ' || c == '\t' || c == '\n' || c == '\r'

/-- Python `line.strip()`. -/
def trimL (s : Str) : Str := ((s.dropWhile isWS).reverse.dropWhile isWS).reverse

/-- The marker the endpoint handler splits on (`client_sse.py` line 65). -/
def sidKey : Str := "session_id=".toList

/-- The line marker for an SSE event-type line (`'event: '`, 7 characters). -/
def evKey : Str := "event: ".toList

/-- The line marker for an SSE data line (`'data: '`, 6 characters). -/
def dataKey : Str := "data: ".toList

/-- `client_sse.py` line 65: `self.session_id = data.split('session_id=')[1]`.
`none` models the uncaught `IndexError` raised when the marker is absent. -/
def extractSessionId (data : Str) : Option Str :=
  (splitOnL sidKey data)[1]?

/-- Modelled from the spec's words only (for comparison with `extractSessionId`):
the value of the `session_id` key of a query-string-style fragment — take the part
after the first `'?'` (or the whole payload when there is none), cut it into
`'&'`-separated parameters, and return what follows `"session_id="` in the first
parameter that starts with that key. -/
def querySessionId (data : Str) : Option Str :=
  ((splitOnL ['&'] ((afterCharL '?' data).getD data)).filterMap
    (fun p => if startsWithL sidKey p = true then some (p.drop sidKey.length) else none)).head?

/-- One advertised tool (elements of the decoded `tools` payload; `input_schema` is
kept opaque). -/
structure ToolDescriptor where
  name : Str
  description : Str
  input_schema : Str
deriving DecidableEq, Repr

/-- The mutable state of `MCPClientSSE` that the SSE reader writes
(`self.session_id`, `self.tools`). -/
structure ClientState where
  session_id : Option Str
  tools : List ToolDescriptor
deriving DecidableEq, Repr

/-- `__init__`: `self.session_id = None`, `self.tools = []`. -/
def initialState : ClientState := ⟨none, []⟩

/-- Oracle for `json.loads` on a `tools` payload: `none` models a raised
`json.JSONDecodeError`. -/
structure JsonOracle where
  decodeTools : Str → Option (List ToolDescriptor)

/-- Dispatch of one SSE data line in `handle_sse_events` (`client_sse.py` lines
63-80), given the current event type `cur` and the payload `data`.  The result is the
updated state, or `none` when the endpoint branch raises its uncaught `IndexError`.
The `error` and unknown branches only print. -/
def handleSseData (J : JsonOracle) (st : ClientState) (cur : Option Str) (data : Str) :
    Option ClientState :=
  if cur = some "endpoint".toList then
    match extractSessionId data with
    | some sid => some { st with session_id := some sid }
    | none => none
  else if cur = some "tools".toList then
    match J.decodeTools data with
    | some cat => some { st with tools := cat }
    | none => some st
  else some st

/-- The event-reading loop of `handle_sse_events` (`client_sse.py` lines 46-80) over a
finite batch of received lines: strip each line, skip blanks, track the current event
type from `'event: '` lines, dispatch `'data: '` lines.  `none` models an uncaught
exception aborting the loop (later lines are never read). -/
def handle_sse_events (J : JsonOracle) : ClientState → Option Str → List Str → Option ClientState
  | st, _, [] => some st
  | st, cur, l :: ls =>
    if trimL l = [] then handle_sse_events J st cur ls
    else if startsWithL evKey (trimL l) = true then
      handle_sse_events J st (some ((trimL l).drop 7)) ls
    else if startsWithL dataKey (trimL l) = true then
      match handleSseData J st cur ((trimL l).drop 6) with
      | some st2 => handle_sse_events J st2 cur ls
      | none => none
    else handle_sse_events J st cur ls

/-- The same loop expressed on already-framed (event-type, payload) pairs: dispatch
them in order, aborting on the first uncaught exception. -/
def applyEvents (J : JsonOracle) : ClientState → List (Option Str × Str) → Option ClientState
  | st, [] => some st
  | st, (cur, d) :: rest =>
    match handleSseData J st cur d with
    | some st2 => applyEvents J st2 rest
    | none => none

/-- The line framing of the event stream (spec section 4.1): turn raw lines into the
ordered list of (event-type, payload) pairs that the two reading loops dispatch. -/
def readLines : Option Str → List Str → List (Option Str × Str)
  | _, [] => []
  | cur, l :: ls =>
    if trimL l = [] then readLines cur ls
    else if startsWithL evKey (trimL l) = true then readLines (some ((trimL l).drop 7)) ls
    else if startsWithL dataKey (trimL l) = true then
      (cur, (trimL l).drop 6) :: readLines cur ls
    else readLines cur ls

/-- A decoded tool-call result (the value produced by `json.loads`), kept opaque. -/
abbrev ResultVal := Str

/-- Modelled from the spec's words (for comparison with the scanning loop of
`call_tool`): the decoded payload of the first event whose type is `result` and whose
payload decodes, every other event being skipped. -/
def firstResult (decode : Str → Option ResultVal) (events : List (Option Str × Str)) :
    Option ResultVal :=
  (events.filterMap fun e => if e.1 = some "result".toList then decode e.2 else none).head?

/-- The response-scanning loop of `call_tool` (`client_sse.py` lines 153-174): read
lines, track the current event type, and return the first decodable payload seen while
the current event type is `result`; `none` models falling off the stream (the code then
raises `No tool response received`). -/
def scanToolResponse (decode : Str → Option ResultVal) :
    Option Str → List Str → Option ResultVal
  | _, [] => none
  | cur, l :: ls =>
    if trimL l = [] then scanToolResponse decode cur ls
    else if startsWithL evKey (trimL l) = true then
      scanToolResponse decode (some ((trimL l).drop 7)) ls
    else if startsWithL dataKey (trimL l) = true then
      match decode ((trimL l).drop 6) with
      | some v => if cur = some "result".toList then some v else scanToolResponse decode cur ls
      | none => scanToolResponse decode cur ls
    else scanToolResponse decode cur ls

/-- Python truthiness of `self.session_id : Optional[str]` (`None` and `""` are falsy). -/
def truthyStr : Option Str → Bool
  | none => false
  | some s => !s.isEmpty

/-- Outcome of the HTTP POST in `call_tool`: a non-200 status with a body, or a 200
response whose body is a stream of lines. -/
inductive PostOutcome where
  | httpError (status : Nat) (body : Str)
  | stream (lines : List Str)

/-- External collaborators of `call_tool`: the `json.loads` oracle and the POST outcome. -/
structure ToolEnv where
  decode : Str → Option ResultVal
  post : PostOutcome

/-- `call_tool` (`client_sse.py` lines 122-176).  The first component is the returned
result or the message of the raised exception; the second component records whether
the network request was sent at all. -/
def call_tool (connected : Bool) (session_id : Option Str) (env : ToolEnv) :
    Except Str ResultVal × Bool :=
  if connected = false ∨ truthyStr session_id = false then
    (.error "Not connected to server".toList, false)
  else
    match env.post with
    | .httpError status body =>
        (.error ("Tool call failed: ".toList ++ (toString status).toList
          ++ " - ".toList ++ body), true)
    | .stream lines =>
        (match scanToolResponse env.decode none lines with
         | some v => .ok v
         | none => .error "No tool response received".toList, true)

/-- One content block of a backend (Claude) response turn. -/
inductive ContentBlock where
  | text (s : Str)
  | toolUse (name : Str) (input : Str)
deriving DecidableEq, Repr

/-- Observable side effects of the orchestrator: a backend (LLM) call, or a tool
invocation sent to the server. -/
inductive LogEntry where
  | llmCall
  | toolCall (name : Str) (input : Str)
deriving DecidableEq, Repr

/-- Outcome of one backend call: the returned content blocks, or the message of a
raised exception. -/
abbrev BackendTurn := Except Str (List ContentBlock)

/-- External collaborators of `client_sse.py`'s `process_query`: the tool call
(`self.call_tool`, whose `Except.error` models any raised exception) and the
second-turn backend call. -/
structure OrchEnv where
  callTool : Str → Str → Except Str ResultVal
  secondTurn : ResultVal → BackendTurn

/-- Python `response.content[0].text`: `some` iff the list starts with a text block
(`none` models the `IndexError`/`AttributeError` otherwise, which the source catches). -/
def firstContentText : List ContentBlock → Option Str
  | .text s :: _ => some s
  | _ => none

/-- The inline error line `f"Error executing tool {tool_name}: {str(e)}"`. -/
def toolErrLine (name msg : Str) : Str :=
  "Error executing tool ".toList ++ name ++ ": ".toList ++ msg

/-- Stand-in for `str(e)` of the shape exceptions raised by `content[0].text`
(the exact wording is immaterial to every claim). -/
def shapeErrMsg : Str := "list index out of range".toList

/-- Handling of one content block in the loop of `client_sse.py` lines 220-259:
a text block is appended verbatim; a tool-use block runs the call / second backend
turn inside `try`, appending either the second answer text or the inline error line.
Returns the appended transcript line and the side effects issued. -/
def handleBlock (env : OrchEnv) : ContentBlock → Str × List LogEntry
  | .text s => (s, [])
  | .toolUse name input =>
    match env.callTool name input with
    | .error e => (toolErrLine name e, [.toolCall name input])
    | .ok r =>
      match env.secondTurn r with
      | .error e => (toolErrLine name e, [.toolCall name input, .llmCall])
      | .ok c2 =>
        match firstContentText c2 with
        | some t => (t, [.toolCall name input, .llmCall])
        | none => (toolErrLine name shapeErrMsg, [.toolCall name input, .llmCall])

/-- The `for content in response.content` loop of `client_sse.py` (the iterator is
fixed at entry, so every block of the first turn is processed independently). -/
def processBlocks (env : OrchEnv) : List ContentBlock → List Str × List LogEntry
  | [] => ([], [])
  | b :: rest =>
    ((handleBlock env b).1 :: (processBlocks env rest).1,
     (handleBlock env b).2 ++ (processBlocks env rest).2)

/-- Python `"\n".join(final_text)`. -/
def joinLines (ls : List Str) : Str := List.intercalate "\n".toList ls

/-- `process_query` of `client_sse.py` (lines 178-261), with the first backend call's
outcome passed in as `firstTurn`.  Returns the transcript and the side-effect log. -/
def process_query (tools : List ToolDescriptor) (firstTurn : BackendTurn) (env : OrchEnv) :
    Str × List LogEntry :=
  if tools.isEmpty then
    ("Error: No tools available from MCP server yet. Please wait...".toList, [])
  else
    match firstTurn with
    | .error _ =>
        ("Sorry, I encountered an error while processing your request.".toList, [.llmCall])
    | .ok content =>
        (joinLines (processBlocks env content).1, .llmCall :: (processBlocks env content).2)

/-- External collaborators of `client.py`'s `process_query`: `session.call_tool`
(returning the result's content list) and the second backend call. -/
structure StdioEnv where
  callTool : Str → Str → Except Str (List ContentBlock)
  secondTurn : Str → BackendTurn

/-- The text blocks of a turn, in order (each is appended to `final_text` in the loop). -/
def textBlocks (content : List ContentBlock) : List Str :=
  content.filterMap fun b => match b with | .text s => some s | _ => none

/-- The (name, input) pairs of the tool-use blocks of a turn, in order. -/
def toolUses (content : List ContentBlock) : List (Str × Str) :=
  content.filterMap fun b => match b with | .toolUse n i => some (n, i) | _ => none

/-- The post-loop tool round of `client.py` (lines 118-151): call the tool, take
`result.content[0].text`, feed it to the second backend turn, append its
`content[0].text`; any raised exception is caught and rendered as the inline error
line. -/
def toolRound (env : StdioEnv) (name input : Str) : Str × List LogEntry :=
  match env.callTool name input with
  | .error e => (toolErrLine name e, [.toolCall name input])
  | .ok rcontent =>
    match firstContentText rcontent with
    | none => (toolErrLine name shapeErrMsg, [.toolCall name input])
    | some raw =>
      match env.secondTurn raw with
      | .error e => (toolErrLine name e, [.toolCall name input, .llmCall])
      | .ok c2 =>
        match firstContentText c2 with
        | some t => (t, [.toolCall name input, .llmCall])
        | none => (toolErrLine name shapeErrMsg, [.toolCall name input, .llmCall])

/-- `process_query` of `client.py` (lines 52-153): text blocks are appended during the
loop; `tool_name`/`tool_args` are overwritten by each tool-use block, so the round
after the loop acts on the last one, if any. -/
def process_query_stdio (firstTurn : BackendTurn) (env : StdioEnv) : Str × List LogEntry :=
  match firstTurn with
  | .error _ =>
      ("Sorry, I encountered an error while processing your request.".toList, [.llmCall])
  | .ok content =>
    match (toolUses content).getLast? with
    | none => (joinLines (textBlocks content), [.llmCall])
    | some (n, i) =>
        (joinLines (textBlocks content ++ [(toolRound env n i).1]),
         .llmCall :: (toolRound env n i).2)

/-- The tool invocations recorded in a side-effect log, in order. -/
def toolCalls (log : List LogEntry) : List (Str × Str) :=
  log.filterMap fun e => match e with | .toolCall n i => some (n, i) | _ => none

/-! Concrete fixtures used by witnesses and counterexamples. -/

/-- A sample decoded tool descriptor. -/
def demoTool : ToolDescriptor := ⟨"add".toList, "adds two numbers".toList, "object".toList⟩

/-- A sample `json.loads` oracle: the payload `good` decodes to `[demoTool]`, every
other payload raises. -/
def J0 : JsonOracle := ⟨fun d => if d = "good".toList then some [demoTool] else none⟩

/-- Orchestrator collaborators that always succeed, second turn answering `t2`. -/
def envLog : OrchEnv := ⟨fun _ _ => .ok "4".toList, fun _ => .ok [.text "t2".toList]⟩

/-- Stdio collaborators that always succeed, second turn answering `t2`. -/
def envSLog : StdioEnv :=
  ⟨fun _ _ => .ok [.text "4".toList], fun _ => .ok [.text "t2".toList]⟩

/-- Orchestrator collaborators: tool result `4`, second turn `The answer is 4`. -/
def envAns : OrchEnv :=
  ⟨fun _ _ => .ok "4".toList, fun _ => .ok [.text "The answer is 4".toList]⟩

/-- Stdio collaborators: tool result text `4`, second turn `The answer is 4`. -/
def envSAns : StdioEnv :=
  ⟨fun _ _ => .ok [.text "4".toList], fun _ => .ok [.text "The answer is 4".toList]⟩

/-- Orchestrator collaborators whose second backend call raises `API down`. -/
def envBoom : OrchEnv := ⟨fun _ _ => .ok "4".toList, fun _ => .error "API down".toList⟩

/-! Library lemmas about the string model. -/

theorem splitOnAuxL_nil (sep : Str) (fuel : Nat) : splitOnAuxL sep fuel [] = [[]] := by
  cases fuel <;> rfl

theorem splitOnAuxL_succ_cons (sep : Str) (fuel : Nat) (x : Char) (rest : Str) :
    splitOnAuxL sep (fuel + 1) (x :: rest) =
      if 0 < sep.length ∧ startsWithL sep (x :: rest) = true then
        [] :: splitOnAuxL sep fuel ((x :: rest).drop sep.length)
      else
        match splitOnAuxL sep fuel rest with
        | [] => [[x]]
        | h :: t => (x :: h) :: t := rfl

theorem startsWithL_append_self (s t : Str) : startsWithL s (s ++ t) = true := by
  induction s with
  | nil => rfl
  | cons a as ih => simp [startsWithL, ih]

theorem startsWithL_cons_of_ne (p : Char) (ps : Str) (x : Char) (xs : Str) (h : p ≠ x) :
    startsWithL (p :: ps) (x :: xs) = false := by
  simp [startsWithL, h]

theorem containsSub_eq_false (s₀ : Char) (sep' xs : Str) (h : ∀ c ∈ xs, c ≠ s₀) :
    containsSub (s₀ :: sep') xs = false := by
  induction xs with
  | nil => rfl
  | cons x rest ih =>
    have hx : s₀ ≠ x := fun hh => (h x (by simp)) hh.symm
    simp [containsSub, startsWithL_cons_of_ne _ _ _ _ hx,
      ih fun c hc => h c (List.mem_cons_of_mem _ hc)]

theorem splitOnAuxL_no_occur (sep : Str) (fuel : Nat) :
    ∀ xs : Str, containsSub sep xs = false → splitOnAuxL sep fuel xs = [xs] := by
  induction fuel with
  | zero => intro xs h; cases xs <;> rfl
  | succ fuel ih =>
    intro xs h
    cases xs with
    | nil => rfl
    | cons x rest =>
      have hb : startsWithL sep (x :: rest) = false ∧ containsSub sep rest = false := by
        simpa [containsSub] using h
      rw [splitOnAuxL_succ_cons, if_neg (fun hc => by simp [hb.1] at hc),
        ih rest hb.2]

theorem splitOnL_no_occur (sep xs : Str) (h : containsSub sep xs = false) :
    splitOnL sep xs = [xs] :=
  splitOnAuxL_no_occur sep xs.length xs h

theorem splitOnAuxL_fuel (sep : Str) : ∀ (f₁ : Nat) (xs : Str) (f₂ : Nat),
    xs.length ≤ f₁ → xs.length ≤ f₂ →
    splitOnAuxL sep f₁ xs = splitOnAuxL sep f₂ xs := by
  intro f₁
  induction f₁ with
  | zero =>
    intro xs f₂ h₁ _
    have : xs = [] := List.eq_nil_of_length_eq_zero (Nat.le_zero.mp h₁)
    subst this
    rw [splitOnAuxL_nil, splitOnAuxL_nil]
  | succ f₁ ih =>
    intro xs f₂ h₁ h₂
    cases xs with
    | nil => rw [splitOnAuxL_nil, splitOnAuxL_nil]
    | cons x rest =>
      cases f₂ with
      | zero => exact absurd h₂ (by simp)
      | succ g =>
        rw [splitOnAuxL_succ_cons, splitOnAuxL_succ_cons]
        have hr1 : rest.length ≤ f₁ := by simp only [List.length_cons] at h₁; omega
        have hr2 : rest.length ≤ g := by simp only [List.length_cons] at h₂; omega
        by_cases hc : 0 < sep.length ∧ startsWithL sep (x :: rest) = true
        · rw [if_pos hc, if_pos hc]
          have hlen : ((x :: rest).drop sep.length).length ≤ rest.length := by
            simp only [List.length_drop, List.length_cons]
            omega
          rw [ih _ g (le_trans hlen hr1) (le_trans hlen hr2)]
        · rw [if_neg hc, if_neg hc, ih rest g hr1 hr2]

theorem splitOnL_boundary (s₀ : Char) (sep' pre rest : Str)
    (hpre : ∀ c ∈ pre, c ≠ s₀) :
    splitOnL (s₀ :: sep') (pre ++ (s₀ :: sep') ++ rest) =
      pre :: splitOnL (s₀ :: sep') rest := by
  induction pre with
  | nil =>
    simp only [List.nil_append]
    unfold splitOnL
    rw [List.cons_append]
    have h1 : (s₀ :: (sep' ++ rest)).length = (sep' ++ rest).length + 1 := by simp
    rw [h1, splitOnAuxL_succ_cons,
      if_pos ⟨by simp, by rw [← List.cons_append]; exact startsWithL_append_self _ _⟩]
    have h2 : (s₀ :: (sep' ++ rest)).drop (s₀ :: sep').length = rest := by
      rw [← List.cons_append]
      exact List.drop_left _ _
    rw [h2, splitOnAuxL_fuel (s₀ :: sep') _ rest rest.length (by simp) (le_refl _)]
  | cons c pre' ih =>
    have hc : s₀ ≠ c := fun hh => (hpre c (by simp)) hh.symm
    have hpre' : ∀ x ∈ pre', x ≠ s₀ := fun x hx => hpre x (List.mem_cons_of_mem _ hx)
    simp only [List.cons_append]
    unfold splitOnL
    have h1 : (c :: (pre' ++ (s₀ :: sep') ++ rest)).length
        = (pre' ++ (s₀ :: sep') ++ rest).length + 1 := by simp
    simp only [List.cons_append] at h1 ⊢
    rw [h1, splitOnAuxL_succ_cons,
      if_neg (fun hco => by
        rw [startsWithL_cons_of_ne _ _ _ _ hc] at hco
        exact Bool.false_ne_true hco.2)]
    have h2 : splitOnAuxL (s₀ :: sep') (pre' ++ s₀ :: sep' ++ rest).length
        (pre' ++ s₀ :: sep' ++ rest) = pre' :: splitOnL (s₀ :: sep') rest := by
      have := ih hpre'
      unfold splitOnL at this
      simpa using this
    simp only [List.append_assoc] at h2 ⊢
    rw [h2]
    rfl

theorem afterCharL_boundary (c : Char) (pre rest : Str) (h : ∀ x ∈ pre, x ≠ c) :
    afterCharL c (pre ++ c :: rest) = some rest := by
  induction pre with
  | nil => simp [afterCharL]
  | cons a as ih =>
    have ha : a ≠ c := h a (by simp)
    simp only [List.cons_append, afterCharL, if_neg ha]
    exact ih fun x hx => h x (List.mem_cons_of_mem _ hx)

theorem joinLines_single (s : Str) : joinLines [s] = s := by
  simp [joinLines, List.intercalate]

/-! Refinement lemmas: the two scanning loops agree with framing-then-selection. -/

theorem firstResult_cons (decode : Str → Option ResultVal) (e : Option Str × Str)
    (evs : List (Option Str × Str)) :
    firstResult decode (e :: evs)
      = match (if e.1 = some "result".toList then decode e.2 else none) with
        | some v => some v
        | none => firstResult decode evs := by
  cases hfa : (if e.1 = some "result".toList then decode e.2 else none) with
  | none => simp only [firstResult, List.filterMap_cons, hfa]
  | some b => simp only [firstResult, List.filterMap_cons, hfa]; rfl

theorem scanToolResponse_eq_firstResult (decode : Str → Option ResultVal) (lines : List Str) :
    ∀ cur, scanToolResponse decode cur lines = firstResult decode (readLines cur lines) := by
  induction lines with
  | nil => intro cur; rfl
  | cons l ls ih =>
    intro cur
    by_cases h1 : trimL l = []
    · simp only [scanToolResponse, readLines, if_pos h1]
      exact ih cur
    · by_cases h2 : startsWithL evKey (trimL l) = true
      · simp only [scanToolResponse, readLines, if_neg h1, if_pos h2]
        exact ih _
      · by_cases h3 : startsWithL dataKey (trimL l) = true
        · simp only [scanToolResponse, readLines, if_neg h1, if_neg h2, if_pos h3]
          rw [firstResult_cons]
          cases hd : decode ((trimL l).drop 6) with
          | none => simp [hd, ih cur]
          | some v =>
            by_cases hcur : cur = some ['r', 'e', 's', 'u', 'l', 't']
            · simp [hd, hcur]
            · simp [hd, hcur, ih cur]
        · simp only [scanToolResponse, readLines, if_neg h1, if_neg h2, if_neg h3]
          exact ih cur

theorem handle_sse_events_eq_applyEvents (J : JsonOracle) (lines : List Str) :
    ∀ st cur, handle_sse_events J st cur lines = applyEvents J st (readLines cur lines) := by
  induction lines with
  | nil => intro st cur; rfl
  | cons l ls ih =>
    intro st cur
    by_cases h1 : trimL l = []
    · simp only [handle_sse_events, readLines, if_pos h1]
      exact ih st cur
    · by_cases h2 : startsWithL evKey (trimL l) = true
      · simp only [handle_sse_events, readLines, if_neg h1, if_pos h2]
        exact ih st _
      · by_cases h3 : startsWithL dataKey (trimL l) = true
        · simp only [handle_sse_events, readLines, if_neg h1, if_neg h2, if_pos h3,
            applyEvents]
          cases hd : handleSseData J st cur ((trimL l).drop 6) with
          | none => simp [hd]
          | some st2 => simp only [hd]; exact ih st2 cur
        · simp only [handle_sse_events, readLines, if_neg h1, if_neg h2, if_neg h3]
          exact ih st cur

/-! Lemmas about the side-effect logs of the orchestrators. -/

theorem toolCalls_handleBlock (env : OrchEnv) (b : ContentBlock) :
    toolCalls (handleBlock env b).2 =
      (match b with | .text _ => [] | .toolUse n i => [(n, i)]) := by
  cases b with
  | text s => rfl
  | toolUse n i =>
    cases hc : env.callTool n i with
    | error e => simp [handleBlock, hc, toolCalls]
    | ok r =>
      cases hs : env.secondTurn r with
      | error e => simp [handleBlock, hc, hs, toolCalls]
      | ok c2 =>
        cases hf : firstContentText c2 <;> simp [handleBlock, hc, hs, hf, toolCalls]

theorem toolCalls_processBlocks (env : OrchEnv) (content : List ContentBlock) :
    toolCalls (processBlocks env content).2 = toolUses content := by
  induction content with
  | nil => rfl
  | cons b rest ih =>
    have hsplit : toolCalls (processBlocks env (b :: rest)).2
        = toolCalls (handleBlock env b).2 ++ toolCalls (processBlocks env rest).2 := by
      simp [processBlocks, toolCalls, List.filterMap_append]
    rw [hsplit, toolCalls_handleBlock, ih]
    cases b <;> simp [toolUses, List.filterMap_cons]

theorem toolCalls_toolRound (env : StdioEnv) (n i : Str) :
    toolCalls (toolRound env n i).2 = [(n, i)] := by
  cases hc : env.callTool n i with
  | error e => simp [toolRound, hc, toolCalls]
  | ok rc =>
    cases hf : firstContentText rc with
    | none => simp [toolRound, hc, hf, toolCalls]
    | some raw =>
      cases hs : env.secondTurn raw with
      | error e => simp [toolRound, hc, hf, hs, toolCalls]
      | ok c2 =>
        cases hf2 : firstContentText c2 <;> simp [toolRound, hc, hf, hs, hf2, toolCalls]

/-! Claim theorems. -/

/-- Claim C5: for every `tools` event, a successfully decoded payload fully replaces
the stored catalog (whatever it was before), and a decode failure leaves the previous
catalog intact. -/
theorem c5_catalog_snapshot (J : JsonOracle) (st : ClientState) (d d' : Str)
    (cat : List ToolDescriptor)
    (h : J.decodeTools d = some cat) (h' : J.decodeTools d' = none) :
    handleSseData J st (some "tools".toList) d = some { st with tools := cat } ∧
    handleSseData J st (some "tools".toList) d' = some st := by
  constructor
  · unfold handleSseData
    rw [if_neg (show ¬(some "tools".toList = some "endpoint".toList) by decide),
      if_pos rfl, h]
  · unfold handleSseData
    rw [if_neg (show ¬(some "tools".toList = some "endpoint".toList) by decide),
      if_pos rfl, h']

/-- Witness for C5 at a concrete oracle, payloads and state. -/
theorem c5_catalog_snapshot_witness :
    handleSseData J0 initialState (some "tools".toList) "good".toList
        = some { initialState with tools := [demoTool] } ∧
    handleSseData J0 initialState (some "tools".toList) "bad".toList = some initialState :=
  c5_catalog_snapshot J0 initialState "good".toList "bad".toList [demoTool]
    (by decide) (by decide)

/-- Claim C6: while awaiting a tool result on an open session, `call_tool` returns the
decoded payload of the first streamed event whose type is `result` and whose payload
decodes, skipping events of other types and events whose payload fails to decode
(raising `No tool response received` when there is none). -/
theorem c6_result_selection (decode : Str → Option ResultVal) (c : Char) (cs : Str)
    (lines : List Str) :
    call_tool true (some (c :: cs)) ⟨decode, .stream lines⟩ =
      ((match firstResult decode (readLines none lines) with
        | some v => Except.ok v
        | none => Except.error "No tool response received".toList), true) := by
  have hguard : ¬ (true = false ∨ truthyStr (some (c :: cs)) = false) := by
    simp [truthyStr]
  simp only [call_tool, if_neg hguard]
  rw [scanToolResponse_eq_firstResult]

/-- Claim C8: `call_tool` invoked while the session identifier is unset fails with the
session-not-established error and sends no network request, whatever the connection
flag and the environment. -/
theorem c8_call_before_session (connected : Bool) (env : ToolEnv) :
    call_tool connected none env = (.error "Not connected to server".toList, false) := by
  simp [call_tool, truthyStr]

/-- Claim C10: a query processed while the tool catalog is empty returns the fixed
string immediately; the empty log records that no backend call and no tool call were
issued. -/
theorem c10_empty_catalog (firstTurn : BackendTurn) (env : OrchEnv) :
    process_query [] firstTurn env =
      ("Error: No tools available from MCP server yet. Please wait...".toList, []) := rfl

theorem extractSessionId_append (pre rest : Str)
    (hp : ∀ c ∈ pre, c ≠ 's') (hr : ∀ c ∈ rest, c ≠ 's') :
    extractSessionId (pre ++ sidKey ++ rest) = some rest := by
  unfold extractSessionId
  have hkey : sidKey = 's' :: "ession_id=".toList := rfl
  rw [hkey, splitOnL_boundary 's' _ pre rest hp,
    splitOnL_no_occur _ rest (containsSub_eq_false 's' _ rest hr)]
  rfl

/-- Claim C1 counterexample: on the well-formed endpoint payload
`/messages?session_id=abc&foo=bar` (where `session_id` is not the last parameter) the
handler stores `abc&foo=bar`, not the key's value `abc`. -/
theorem c1_counterexample :
    handleSseData J0 initialState (some "endpoint".toList)
        "/messages?session_id=abc&foo=bar".toList
      = some { initialState with session_id := some "abc&foo=bar".toList } ∧
    querySessionId "/messages?session_id=abc&foo=bar".toList = some "abc".toList ∧
    "abc&foo=bar".toList ≠ "abc".toList :=
  ⟨by decide, by decide, by decide⟩

/-- Claim C1 (amended): the handler stores everything after the first `session_id=`
marker.  When `session_id` is the last parameter this equals the key's value verbatim;
when further `&`-separated parameters follow, their text is included in the stored
identifier while the key's value stops at the `&`. -/
theorem c1_amended (J : JsonOracle) (st : ClientState) (pre v w : Str)
    (hps : ∀ c ∈ pre, c ≠ 's') (hpq : ∀ c ∈ pre, c ≠ '?')
    (hvs : ∀ c ∈ v, c ≠ 's') (hva : ∀ c ∈ v, c ≠ '&')
    (hws : ∀ c ∈ w, c ≠ 's') :
    handleSseData J st (some "endpoint".toList) (pre ++ '?' :: (sidKey ++ v))
      = some { st with session_id := some v } ∧
    querySessionId (pre ++ '?' :: (sidKey ++ v)) = some v ∧
    handleSseData J st (some "endpoint".toList)
        (pre ++ '?' :: (sidKey ++ (v ++ '&' :: w)))
      = some { st with session_id := some (v ++ '&' :: w) } ∧
    querySessionId (pre ++ '?' :: (sidKey ++ (v ++ '&' :: w))) = some v := by
  have hpq' : ∀ c ∈ pre ++ ['?'], c ≠ 's' := by
    intro c hc
    rcases List.mem_append.mp hc with h | h
    · exact hps c h
    · simp at h; subst h; decide
  have hsidamp : ∀ x ∈ sidKey, x ≠ '&' := by decide
  have hampk : ∀ c ∈ sidKey ++ v, c ≠ '&' := by
    intro c hc
    rcases List.mem_append.mp hc with h | h
    · exact hsidamp c h
    · exact hva c h
  have hsid1 : ∀ c ∈ v, c ≠ 's' := hvs
  have hsid2 : ∀ c ∈ v ++ '&' :: w, c ≠ 's' := by
    intro c hc
    rcases List.mem_append.mp hc with h | h
    · exact hvs c h
    · rcases List.mem_cons.mp h with h | h
      · subst h; decide
      · exact hws c h
  have hshape1 : pre ++ '?' :: (sidKey ++ v) = (pre ++ ['?']) ++ sidKey ++ v := by simp
  have hshape2 : pre ++ '?' :: (sidKey ++ (v ++ '&' :: w))
      = (pre ++ ['?']) ++ sidKey ++ (v ++ '&' :: w) := by simp
  refine ⟨?_, ?_, ?_, ?_⟩
  · unfold handleSseData
    rw [if_pos rfl, hshape1, extractSessionId_append _ _ hpq' hsid1]
  · unfold querySessionId
    rw [afterCharL_boundary '?' pre _ hpq]
    simp only [Option.getD_some]
    rw [splitOnL_no_occur _ _ (containsSub_eq_false '&' [] _ hampk)]
    simp [List.filterMap_cons, startsWithL_append_self, List.drop_left]
  · unfold handleSseData
    rw [if_pos rfl, hshape2, extractSessionId_append _ _ hpq' hsid2]
  · unfold querySessionId
    rw [afterCharL_boundary '?' pre _ hpq]
    simp only [Option.getD_some]
    have hshape3 : sidKey ++ (v ++ '&' :: w) = (sidKey ++ v) ++ ('&' :: []) ++ w := by
      simp
    rw [hshape3, splitOnL_boundary '&' [] (sidKey ++ v) w hampk]
    simp [List.filterMap_cons, startsWithL_append_self, List.drop_left]

/-- Witness for C1 (amended) at concrete path, value and trailing parameter. -/
theorem c1_amended_witness :
    handleSseData J0 initialState (some "endpoint".toList)
        ("/endpoint".toList ++ '?' :: (sidKey ++ "abc123".toList))
      = some { initialState with session_id := some "abc123".toList } ∧
    querySessionId ("/endpoint".toList ++ '?' :: (sidKey ++ "abc123".toList))
      = some "abc123".toList ∧
    handleSseData J0 initialState (some "endpoint".toList)
        ("/endpoint".toList ++ '?' :: (sidKey ++ ("abc123".toList ++ '&' :: "foo=bar".toList)))
      = some { initialState with
          session_id := some ("abc123".toList ++ '&' :: "foo=bar".toList) } ∧
    querySessionId
        ("/endpoint".toList ++ '?' :: (sidKey ++ ("abc123".toList ++ '&' :: "foo=bar".toList)))
      = some "abc123".toList :=
  c1_amended J0 initialState "/endpoint".toList "abc123".toList "foo=bar".toList
    (by decide) (by decide) (by decide) (by decide) (by decide)

/-- Claim C2 counterexample: a second endpoint event with a different `session_id`
overwrites the stored identifier, so it is not immutable once set. -/
theorem c2_counterexample :
    handle_sse_events J0 initialState none
      ["event: endpoint".toList, "data: /m?session_id=first".toList,
       "event: endpoint".toList, "data: /m?session_id=second".toList]
      = some { initialState with session_id := some "second".toList } ∧
    "second".toList ≠ "first".toList :=
  ⟨by decide, by decide⟩

/-- Claim C2 (amended): events other than `endpoint` never change the stored session
identifier, but every well-formed `endpoint` event overwrites it (even when a session
was already established). -/
theorem c2_amended (J : JsonOracle) (st st' : ClientState) (cur : Option Str)
    (d data v : Str)
    (h1 : handleSseData J st cur d = some st')
    (h2 : cur ≠ some "endpoint".toList)
    (h3 : extractSessionId data = some v) :
    st'.session_id = st.session_id ∧
    handleSseData J st (some "endpoint".toList) data
      = some { st with session_id := some v } := by
  constructor
  · unfold handleSseData at h1
    rw [if_neg h2] at h1
    by_cases hc : cur = some "tools".toList
    · rw [if_pos hc] at h1
      cases hdec : J.decodeTools d with
      | some cat => rw [hdec] at h1; cases h1; rfl
      | none => rw [hdec] at h1; cases h1; rfl
    · rw [if_neg hc] at h1; cases h1; rfl
  · unfold handleSseData
    rw [if_pos rfl, h3]

/-- Witness for C2 (amended): a `tools` event leaves an established identifier
unchanged, and a concrete endpoint event overwrites it. -/
theorem c2_amended_witness :
    ({ initialState with tools := [demoTool] } : ClientState).session_id
      = initialState.session_id ∧
    handleSseData J0 initialState (some "endpoint".toList) "/m?session_id=n".toList
      = some { initialState with session_id := some "n".toList } :=
  c2_amended J0 initialState { initialState with tools := [demoTool] }
    (some "tools".toList) "good".toList "/m?session_id=n".toList "n".toList
    (by decide) (by decide) (by decide)

/-- Claim C4 counterexample: an endpoint event without a `session_id` key aborts the
event-reading loop (uncaught `IndexError`); the loop does not continue, so a later
well-formed endpoint event can no longer establish the session. -/
theorem c4_counterexample :
    handleSseData J0 initialState (some "endpoint".toList) "/messages/".toList = none ∧
    handle_sse_events J0 initialState none
      ["event: endpoint".toList, "data: /messages/".toList,
       "event: endpoint".toList, "data: /messages/?session_id=zzz".toList] = none :=
  ⟨by decide, by decide⟩

/-- Claim C4 (amended): an endpoint payload with no `session_id=` marker makes the
handler raise an uncaught `IndexError`, which terminates the event-reading loop; the
session stays unestablished and no later event of the batch is processed. -/
theorem c4_amended (J : JsonOracle) (st : ClientState) (data : Str)
    (rest : List (Option Str × Str))
    (h : containsSub sidKey data = false) :
    handleSseData J st (some "endpoint".toList) data = none ∧
    applyEvents J st ((some "endpoint".toList, data) :: rest) = none := by
  have hext : extractSessionId data = none := by
    unfold extractSessionId
    rw [splitOnL_no_occur sidKey data h]
    rfl
  have h1 : handleSseData J st (some "endpoint".toList) data = none := by
    unfold handleSseData
    rw [if_pos rfl, hext]
  exact ⟨h1, by unfold applyEvents; rw [h1]⟩

/-- Witness for C4 (amended) on a concrete keyless payload. -/
theorem c4_amended_witness :
    containsSub sidKey "/nokey".toList = false ∧
    handleSseData J0 initialState (some "endpoint".toList) "/nokey".toList = none ∧
    applyEvents J0 initialState [(some "endpoint".toList, "/nokey".toList)] = none :=
  ⟨by decide,
    (c4_amended J0 initialState "/nokey".toList [] (by decide)).1,
    (c4_amended J0 initialState "/nokey".toList [] (by decide)).2⟩

/-- Claim C3 counterexample: with two tool-use blocks in one turn, the SSE client
issues two tool invocations (the extra block is not ignored), and the stdio client
issues its single invocation for the last block, not the first. -/
theorem c3_counterexample :
    toolCalls (process_query [demoTool]
        (.ok [.toolUse "a".toList "x".toList, .toolUse "b".toList "y".toList]) envLog).2
      = [("a".toList, "x".toList), ("b".toList, "y".toList)] ∧
    toolCalls (process_query_stdio
        (.ok [.toolUse "a".toList "x".toList, .toolUse "b".toList "y".toList]) envSLog).2
      = [("b".toList, "y".toList)] :=
  ⟨by decide, by decide⟩

theorem toolCalls_llm_cons (L : List LogEntry) :
    toolCalls (.llmCall :: L) = toolCalls L := rfl

/-- Claim C3 (amended): the SSE client issues one tool invocation per tool-use block
of the turn, in encounter order; the stdio client issues at most one invocation, for
the last tool-use block of the turn. -/
theorem c3_amended (env : OrchEnv) (envS : StdioEnv) (t : ToolDescriptor)
    (ts : List ToolDescriptor) (content : List ContentBlock) :
    toolCalls (process_query (t :: ts) (.ok content) env).2 = toolUses content ∧
    toolCalls (process_query_stdio (.ok content) envS).2
      = ((toolUses content).getLast?).toList := by
  constructor
  · have hne : (t :: ts).isEmpty = false := rfl
    simp only [process_query, hne, Bool.false_eq_true, if_false]
    simp only [toolCalls, List.filterMap_cons]
    exact toolCalls_processBlocks env content
  · cases hl : (toolUses content).getLast? with
    | none => simp [process_query_stdio, hl, toolCalls]
    | some c =>
      obtain ⟨n, i⟩ := c
      simp [process_query_stdio, hl, toolCalls_llm_cons, toolCalls_toolRound]

/-- Claim C7 counterexample: when the first turn also contains a text block, that
unresolved first-turn text is kept in the transcript ahead of the second-turn answer,
in both clients. -/
theorem c7_counterexample :
    (process_query [demoTool]
        (.ok [.text "Let me add those".toList, .toolUse "add".toList "a=2,b=2".toList])
        envAns).1
      = "Let me add those\nThe answer is 4".toList ∧
    "Let me add those\nThe answer is 4".toList ≠ "The answer is 4".toList ∧
    (process_query_stdio
        (.ok [.text "Let me add those".toList, .toolUse "add".toList "a=2,b=2".toList])
        envSAns).1
      = "Let me add those\nThe answer is 4".toList :=
  ⟨by decide, by decide, by decide⟩

theorem processBlocks_fst (env : OrchEnv) (content : List ContentBlock) :
    (processBlocks env content).1
      = content.map fun b => match b with
          | ContentBlock.text s => s
          | ContentBlock.toolUse n2 a2 => (handleBlock env (ContentBlock.toolUse n2 a2)).1 := by
  induction content with
  | nil => rfl
  | cons b rest ih => cases b <;> simp [processBlocks, handleBlock, ih]

/-- Claim C7 (amended): the transcript retains the first-turn text rather than erasing
it.  The SSE client returns one line per first-turn content block in encounter order -
text blocks verbatim, each tool-use block replaced by the line its round produced,
which for a successful call is the second-turn answer; the stdio client returns the
first-turn text blocks followed by the single second-turn answer.  The transcript is
the second-turn answer alone when the first turn is the tool-use block alone. -/
theorem c7_amended (env : OrchEnv) (envS : StdioEnv) (t : ToolDescriptor)
    (ts : List ToolDescriptor) (content : List ContentBlock)
    (n a r raw t2 : Str) (rrest c2rest c2rest' : List ContentBlock)
    (h1 : env.callTool n a = .ok r)
    (h2 : env.secondTurn r = .ok (.text t2 :: c2rest))
    (h3 : envS.callTool n a = .ok (.text raw :: rrest))
    (h4 : envS.secondTurn raw = .ok (.text t2 :: c2rest'))
    (hlast : (toolUses content).getLast? = some (n, a)) :
    (process_query (t :: ts) (.ok content) env).1
      = joinLines (content.map fun b => match b with
          | ContentBlock.text s => s
          | ContentBlock.toolUse n2 a2 => (handleBlock env (ContentBlock.toolUse n2 a2)).1) ∧
    (handleBlock env (ContentBlock.toolUse n a)).1 = t2 ∧
    (process_query_stdio (.ok content) envS).1
      = joinLines (textBlocks content ++ [t2]) ∧
    (process_query (t :: ts) (.ok [ContentBlock.toolUse n a]) env).1 = t2 ∧
    (process_query_stdio (.ok [ContentBlock.toolUse n a]) envS).1 = t2 := by
  have hne : (t :: ts).isEmpty = false := rfl
  have hround : toolRound envS n a = (t2, [LogEntry.toolCall n a, LogEntry.llmCall]) := by
    simp [toolRound, h3, firstContentText, h4]
  refine ⟨?_, ?_, ?_, ?_, ?_⟩
  · simp only [process_query, hne, Bool.false_eq_true, if_false]
    rw [processBlocks_fst]
  · simp [handleBlock, h1, h2, firstContentText]
  · simp [process_query_stdio, hlast, hround]
  · simp only [process_query, hne, Bool.false_eq_true, if_false]
    simp only [processBlocks, handleBlock, h1, h2, firstContentText]
    exact joinLines_single t2
  · have hlast1 : (toolUses [ContentBlock.toolUse n a]).getLast? = some (n, a) := rfl
    simp [process_query_stdio, hlast1, hround, textBlocks, joinLines_single]

/-- Witness for C7 (amended) on a first turn whose text block follows the tool-use
block: the SSE client answers in block order, the stdio client puts the text first,
and a lone tool-use turn yields the bare answer in both. -/
theorem c7_amended_witness :
    (process_query [demoTool]
        (.ok [.toolUse "add".toList "a=2,b=2".toList, .text "done".toList]) envAns).1
      = "The answer is 4\ndone".toList ∧
    (process_query_stdio
        (.ok [.toolUse "add".toList "a=2,b=2".toList, .text "done".toList]) envSAns).1
      = "done\nThe answer is 4".toList ∧
    (process_query [demoTool] (.ok [.toolUse "add".toList "a=2,b=2".toList]) envAns).1
      = "The answer is 4".toList ∧
    (process_query_stdio (.ok [.toolUse "add".toList "a=2,b=2".toList]) envSAns).1
      = "The answer is 4".toList := by
  have h := c7_amended envAns envSAns demoTool []
    [ContentBlock.toolUse "add".toList "a=2,b=2".toList, ContentBlock.text "done".toList]
    "add".toList "a=2,b=2".toList "4".toList "4".toList "The answer is 4".toList
    [] [] [] rfl rfl rfl rfl (by decide)
  exact ⟨h.1.trans (by decide), h.2.2.1.trans (by decide), h.2.2.2.1, h.2.2.2.2⟩

/-- Claim C9 counterexample: a backend failure at the second turn does not degrade to
the fixed apology message; it is rendered as an inline tool-error line instead. -/
theorem c9_counterexample :
    (process_query [demoTool] (.ok [.toolUse "add".toList "a=2,b=2".toList]) envBoom).1
      = "Error executing tool add: API down".toList ∧
    "Error executing tool add: API down".toList
      ≠ "Sorry, I encountered an error while processing your request.".toList :=
  ⟨by decide, by decide⟩

/-- Claim C9 (amended): a first-turn backend failure resolves the query to the fixed
apology message, while a second-turn backend failure is caught and rendered as the
inline `Error executing tool ...` transcript line; neither is raised to the caller. -/
theorem c9_amended (env : OrchEnv) (t : ToolDescriptor) (ts : List ToolDescriptor)
    (e e2 r n a : Str)
    (h1 : env.callTool n a = .ok r) (h2 : env.secondTurn r = .error e2) :
    process_query (t :: ts) (.error e) env
      = ("Sorry, I encountered an error while processing your request.".toList,
         [.llmCall]) ∧
    (process_query (t :: ts) (.ok [.toolUse n a]) env).1 = toolErrLine n e2 := by
  constructor
  · have hne : (t :: ts).isEmpty = false := rfl
    simp [process_query, hne]
  · have hne : (t :: ts).isEmpty = false := rfl
    simp only [process_query, hne, Bool.false_eq_true, if_false]
    simp only [processBlocks, handleBlock, h1, h2]
    exact joinLines_single _

/-- Witness for C9 (amended) with a concrete failing second-turn backend. -/
theorem c9_amended_witness :
    process_query [demoTool] (.error "boom".toList) envBoom
      = ("Sorry, I encountered an error while processing your request.".toList,
         [.llmCall]) ∧
    (process_query [demoTool] (.ok [.toolUse "add".toList "args".toList]) envBoom).1
      = toolErrLine "add".toList "API down".toList :=
  c9_amended envBoom demoTool [] "boom".toList "API down".toList "4".toList
    "add".toList "args".toList rfl rfl
